import Mathlib

/-!
Verification of the areopagus voting core (src/polls/models.py, views.py,
admin.py) against its natural-language specification.  The Django models are
embedded as lists of records; each view/action becomes a pure function from a
database value (plus the request data and an oracle for the random source) to
a new database value and an observable outcome.
-/

namespace Areopagus

/-- Embedding of `Poll.State` (models.py): NOT_STARTED 'N', STARTED 'S',
FINISHED 'F'. -/
inductive PollState
  | NOT_STARTED
  | STARTED
  | FINISHED
  deriving DecidableEq

/-- Embedding of `Key.Response` (models.py): YES 'Y', NO 'N', SPOILED 'S',
NOT_RETURNED '?'. -/
inductive Response
  | YES
  | NO
  | SPOILED
  | NOT_RETURNED
  deriving DecidableEq

/-- Embedding of `SendEmail.Status` (models.py). -/
inductive SendStatus
  | LOCAL
  | READY
  | QUEUEING
  | SENDING
  | SUCCESS
  | ERROR
  deriving DecidableEq

/-- Embedding of the `Poll` model row; only the fields the verified operations
read or write are kept (title/text/date are opaque payload). `voter_local` and
`voter_remote` hold `Voter` primary keys; `secretary` a `User` primary key.
`private_key_method` holds the stored choice character, `"6"` = SIX_DIGITS. -/
structure Poll where
  id : Nat
  allow_spoiling : Bool
  private_key_method : String
  state : PollState
  voter_local : List Nat
  voter_remote : List Nat
  secretary : Nat
  deriving DecidableEq

/-- Embedding of the `SendEmail` (entitlement ledger) row; `public_key` is the
UUID primary key, `voter`/`poll`/`secretary` are foreign keys. -/
structure SendEmail where
  public_key : String
  voter : Nat
  poll : Nat
  visited : Bool
  status : SendStatus
  secretary : Nat
  deriving DecidableEq

/-- Embedding of the `Key` model row: `value` is the primary key (hence
globally unique across all polls in a well-formed table), `poll` a nullable
foreign key, `response` defaults to NOT_RETURNED. -/
structure Key where
  poll : Option Nat
  value : String
  response : Response
  deriving DecidableEq

/-- Embedding of the `BadKey` model row (timestamp omitted: no verified
operation reads it). -/
structure BadKey where
  poll : Option Nat
  value : String
  deriving DecidableEq

/-- The persistent store: one list per table. -/
structure DB where
  polls : List Poll
  keys : List Key
  sendEmails : List SendEmail
  badKeys : List BadKey
  deriving DecidableEq

/-! ### The redeem view (`vote`, views.py lines 56-104) -/

/-- Observable result of the `vote` view, one constructor per rendered page. -/
inductive VoteOutcome
  | noSuchPoll                    -- "Данного голосования не существует"
  | stateMessage (s : PollState)  -- "Данное голосование <state label>"
  | keyUnregistered               -- "Данный номер бюллетеня не зарегистрирован…"
  | spoilingForbidden             -- "В данном голосовании нельзя портить бюллетень"
  | responseUnrecognized          -- "Ответ не распознан"
  | voteRecorded                  -- "Ваш голос учтён"
  | alreadyVoted                  -- "Ошибка: вы уже проголовали ранее"
  | renderForm                    -- the polls/vote.html ballot form
  deriving DecidableEq

/-- `Key.Response(token)`: Django TextChoices lookup by stored value; raises
ValueError (`none`) when the token is not one of the four stored values. -/
def parseToken (s : String) : Option Response :=
  if s = "Y" then some .YES
  else if s = "N" then some .NO
  else if s = "S" then some .SPOILED
  else if s = "?" then some .NOT_RETURNED
  else none

/-- The response-set computation of the `vote` view (views.py lines 86-92):
build the set of parsed tokens, collapse {YES, NO} to SPOILED, accept a
singleton set, raise ValueError (`none`) otherwise. -/
def parseResponses (l : List String) : Option Response :=
  match l.mapM parseToken with
  | none => none
  | some rs =>
    if rs.toFinset = ({Response.YES, Response.NO} : Finset Response) then some .SPOILED
    else
      match rs.dedup with
      | [r] => some r
      | _ => none

/-- `key.save()` persists by the primary key `value`. -/
def saveKeyResponse (keys : List Key) (v : String) (r : Response) : List Key :=
  keys.map fun k => if k.value = v then { k with response := r } else k

/-- Embedding of the `vote` view.  `isPost` distinguishes POST from GET;
`response_list` is `request.POST.getlist("response")`. -/
def vote (db : DB) (poll_id : Nat) (private_key : String) (isPost : Bool)
    (response_list : List String) : DB × VoteOutcome :=
  match db.polls.find? (fun p => decide (p.id = poll_id)) with
  | none => (db, .noSuchPoll)
  | some poll =>
    if poll.state ≠ PollState.STARTED then
      (db, .stateMessage poll.state)
    else
      match db.keys.find? (fun k => decide (k.value = private_key ∧ k.poll = some poll_id)) with
      | none =>
        ({ db with badKeys := db.badKeys ++ [⟨some poll_id, private_key⟩] }, .keyUnregistered)
      | some key =>
        if isPost then
          match parseResponses response_list with
          | none => (db, .responseUnrecognized)
          | some response =>
            if poll.allow_spoiling = false ∧ response = Response.SPOILED then
              (db, .spoilingForbidden)
            else if key.response = Response.NOT_RETURNED then
              ({ db with keys := saveKeyResponse db.keys key.value response }, .voteRecorded)
            else
              (db, .alreadyVoted)
        else
          if key.response = Response.NOT_RETURNED then (db, .renderForm)
          else (db, .alreadyVoted)

/-! ### Key minting (`secure_digits`, `Poll.create_private_key_for`, models.py) -/

/-- `string.digits`, the alphabet passed to `secure_digits`. -/
def digits : List Char := ['0', '1', '2', '3', '4', '5', '6', '7', '8', '9']

/-- `secure_digits(k, digits)` (models.py line 40): join `k` draws of
`secrets.choice(ds)`.  The secure random source is abstracted as the oracle
`choice`, which by the contract of `secrets.choice` returns an index into
`ds`. -/
def secure_digits (k : Nat) (ds : List Char) (choice : Nat → Fin ds.length) : String :=
  String.mk ((List.range k).map fun i => ds.get (choice i))

/-- Errors escaping `Poll.create_private_key_for`.  The first five are raised
there (ValueError / AssertionError); `integrityViolation` arises inside
`Key.objects.get_or_create(poll=self, value=v)` when the `get` part misses
(no row has this poll AND this value) but the insert hits the primary-key
uniqueness of `value` because a different poll owns the value: Django then
retries the same two-field lookup, still misses, and re-raises the
IntegrityError. -/
inductive MintError
  | pollFinished            -- ValueError "Голосование завершено"
  | bulletinAlreadyIssued   -- ValueError "Бюллетень уже выдан"
  | generatorLengthBad      -- AssertionError: wrong number of digits
  | keySpaceExhausted       -- ValueError: 1000 attempts
  | methodUnknown           -- ValueError: unknown private_key_method
  | integrityViolation      -- IntegrityError: duplicate primary key `value`
  deriving DecidableEq

/-- `Key.objects.get_or_create(poll=pid, value=v)` over a `Key` table whose
primary key is `value`. -/
def keyGetOrCreate (keys : List Key) (pid : Nat) (v : String) :
    Except MintError (List Key × Key × Bool) :=
  match keys.find? (fun k => decide (k.value = v ∧ k.poll = some pid)) with
  | some k => .ok (keys, k, false)
  | none =>
    if keys.any (fun k => decide (k.value = v)) then .error .integrityViolation
    else
      let k : Key := { poll := some pid, value := v, response := .NOT_RETURNED }
      .ok (keys ++ [k], k, true)

/-- The `for _ in range(1000)` retry loop of `create_private_key_for`
(models.py lines 100-107); `gen attempt` is the `secure_digits(k=6)` draw of
the given attempt, `fuel` counts the remaining attempts.  The `for`'s `else`
raises the 1000-attempts ValueError. -/
def mintLoop (keys : List Key) (pid : Nat) (gen : Nat → String) :
    Nat → Nat → Except MintError (List Key × Key)
  | 0, _ => .error .keySpaceExhausted
  | fuel + 1, attempt =>
    let v := gen attempt
    if v.length ≠ 6 then .error .generatorLengthBad
    else
      match keyGetOrCreate keys pid v with
      | .error e => .error e
      | .ok (keys2, k, created) =>
        if created then .ok (keys2, k)
        else mintLoop keys pid gen fuel (attempt + 1)

/-- Embedding of `Poll.create_private_key_for(send_email)` (models.py lines
90-113): state gate, visited gate, method dispatch, retry loop, then flip
`visited` (saved by the primary key `public_key`). -/
def create_private_key_for (db : DB) (poll : Poll) (se : SendEmail)
    (gen : Nat → String) : Except MintError (DB × Key) :=
  if poll.state = PollState.FINISHED then .error .pollFinished
  else if se.visited = true then .error .bulletinAlreadyIssued
  else if poll.private_key_method = "6" then
    match mintLoop db.keys poll.id gen 1000 0 with
    | .error e => .error e
    | .ok (keys2, k) =>
      .ok ({ db with
              keys := keys2,
              sendEmails := db.sendEmails.map fun x =>
                if x.public_key = se.public_key then { x with visited := true } else x }, k)
  else .error .methodUnknown

/-! ### The bulletin views (`get_bulletin_common`, views.py; `print_bulletins`,
admin.py) -/

/-- Which `MintError`s are Python `ValueError`s — the only exception class
`get_bulletin_common` catches. -/
def isValueError : MintError → Bool
  | .generatorLengthBad => false
  | .integrityViolation => false
  | _ => true

/-- Observable result of `get_bulletin_common` (views.py lines 29-41). -/
inductive BulletinOutcome
  | pollMissing                   -- dangling poll foreign key (unreachable via Django)
  | valueMessage (e : MintError)  -- `except ValueError` rendered as a message page
  | internalFault (e : MintError) -- a non-ValueError escapes the view
  | showKey (k : Key)             -- the get_bulletin page with the private key
  deriving DecidableEq

/-- Embedding of `get_bulletin_common`: resolve the record's poll, mint a key,
render it; ValueErrors become in-page messages with no database change. -/
def get_bulletin_common (db : DB) (se : SendEmail) (gen : Nat → String) :
    DB × BulletinOutcome :=
  match db.polls.find? (fun p => decide (p.id = se.poll)) with
  | none => (db, .pollMissing)
  | some poll =>
    match create_private_key_for db poll se gen with
    | .error e => if isValueError e then (db, .valueMessage e) else (db, .internalFault e)
    | .ok (db2, k) => (db2, .showKey k)

/-- Observable result of `PollsAdminSite.print_bulletins` (admin.py lines
46-75).  `printed` carries the minted keys in mint order; the in-place
`random.shuffle` before rendering permutes only the display order. -/
inductive PrintOutcome
  | notFound404          -- Http404: no such poll for this secretary
  | notStartedMessage    -- "Голосование не начато"
  | mintFault (e : MintError)  -- `except Exception` → "Ошибка: …"
  | printed (ks : List Key)
  deriving DecidableEq

/-- The `for send_email in send_emails` loop of `print_bulletins`: the caught
failure returns the inline error while keeping every change already made in
this batch (the `return` leaves the `transaction.atomic` block normally, so
the transaction commits). -/
def printLoop (poll : Poll) (gen : Nat → Nat → String) :
    DB → List SendEmail → Nat → List Key → DB × PrintOutcome
  | db, [], _, acc => (db, .printed acc)
  | db, se :: rest, i, acc =>
    match create_private_key_for db poll se (gen i) with
    | .error e => (db, .mintFault e)
    | .ok (db2, k) => printLoop poll gen db2 rest (i + 1) (acc ++ [k])

/-- Embedding of `print_bulletins`: the entitlement selection (unvisited,
LOCAL, this poll, this secretary) is evaluated once, then each record is
minted in turn.  `gen i` is the draw oracle of the i-th record's mint call. -/
def print_bulletins (db : DB) (poll_id sec : Nat) (gen : Nat → Nat → String) :
    DB × PrintOutcome :=
  match db.polls.find? (fun p => decide (p.id = poll_id ∧ p.secretary = sec)) with
  | none => (db, .notFound404)
  | some poll =>
    if poll.state ≠ PollState.STARTED then (db, .notStartedMessage)
    else
      let sel := db.sendEmails.filter fun se =>
        decide (se.visited = false ∧ se.poll = poll_id ∧
                se.status = SendStatus.LOCAL ∧ se.secretary = sec)
      printLoop poll gen db sel 0 []

/-! ### Administrative poll actions (`PollAdmin`, admin.py lines 235-273) -/

/-- The statuses `start_sending_thread` selects for (re)delivery
(models.py line 123). -/
def sendPending : SendStatus → Bool
  | .READY => true
  | .ERROR => true
  | .QUEUEING => true
  | .SENDING => true
  | _ => false

/-- Embedding of `Poll.start_sending_thread` (models.py lines 115-147) at the
granularity of its observable final state: every pending record of the poll
ends in SUCCESS or ERROR as the mail transport (the oracle `sendOk`, keyed by
the record's public key) decides; the intermediate QUEUEING/SENDING states are
not visible once the loop returns. -/
def start_sending_thread (db : DB) (pid : Nat) (sendOk : String → Bool) : DB :=
  { db with sendEmails := db.sendEmails.map fun se =>
      if se.poll = pid ∧ sendPending se.status = true then
        { se with status := if sendOk se.public_key then .SUCCESS else .ERROR }
      else se }

/-- `SendEmail.objects.get_or_create(voter=…, poll=…, secretary=…)` used by
`start_poll` to seed the entitlement ledger; `uuid n` is the n-th fresh
`uuid4` primary key of this action. -/
def seedRecord (db : DB) (uuid : Nat → String) (n voterId pid sec : Nat)
    (st : SendStatus) : DB × Nat :=
  if db.sendEmails.any (fun se =>
      decide (se.voter = voterId ∧ se.poll = pid ∧ se.secretary = sec)) then
    (db, n)
  else
    ({ db with sendEmails := db.sendEmails ++
        [{ public_key := uuid n, voter := voterId, poll := pid, visited := false,
           status := st, secretary := sec }] }, n + 1)

/-- Seed one ledger record per voter of one membership list. -/
def seedVoters (uuid : Nat → String) (pid sec : Nat) (st : SendStatus) :
    DB × Nat → List Nat → DB × Nat
  | acc, [] => acc
  | acc, voterId :: rest =>
    seedVoters uuid pid sec st (seedRecord acc.1 uuid acc.2 voterId pid sec st) rest

/-- One iteration of the `start_poll` loop (admin.py lines 237-252): seed the
remote voters (READY) then the local voters (LOCAL), set the poll STARTED,
then run the synchronous delivery loop. -/
def startOne (uuid : Nat → String) (sendOk : String → Bool) (sec : Nat)
    (acc : DB × Nat) (poll : Poll) : DB × Nat :=
  let a2 := seedVoters uuid poll.id sec .LOCAL
    (seedVoters uuid poll.id sec .READY acc poll.voter_remote) poll.voter_local
  let db2 := { a2.1 with polls := a2.1.polls.map fun p =>
      if p.id = poll.id then { p with state := PollState.STARTED } else p }
  (start_sending_thread db2 poll.id sendOk, a2.2)

/-- Embedding of `PollAdmin.start_poll`: `sel` is the set of poll ids of the
action's queryset (already scoped to the acting secretary by
`LimitForSecretary`); `queryset.exclude(state=FINISHED)` is evaluated once,
then each poll is processed in turn. -/
def start_poll (db : DB) (sel : List Nat) (sec : Nat) (uuid : Nat → String)
    (sendOk : String → Bool) : DB :=
  ((db.polls.filter fun p =>
      decide (p.id ∈ sel ∧ p.state ≠ PollState.FINISHED)).foldl
    (startOne uuid sendOk sec) (db, 0)).1

/-- Embedding of `PollAdmin.end_poll`:
`queryset.filter(state=STARTED).update(state=FINISHED)`. -/
def end_poll (db : DB) (sel : List Nat) : DB :=
  { db with polls := db.polls.map fun p =>
      if p.id ∈ sel ∧ p.state = PollState.STARTED then { p with state := PollState.FINISHED }
      else p }

/-- The fresh autoincrement primary key `poll.save()` assigns after
`poll.pk = None`. -/
def freshId (polls : List Poll) : Nat :=
  (polls.map Poll.id).foldl max 0 + 1

/-- Embedding of `PollAdmin.duplicate_poll`: each selected poll is cloned into
a brand-new NOT_STARTED poll with the same fields and voter sets; the
originals are untouched. -/
def duplicate_poll (db : DB) (sel : List Nat) : DB :=
  (db.polls.filter fun p => decide (p.id ∈ sel)).foldl
    (fun acc p => { acc with polls := acc.polls ++
        [{ p with id := freshId acc.polls, state := PollState.NOT_STARTED }] }) db

/-- One administrative action, with its request data and oracles. -/
inductive AdminAction
  | startPoll (sel : List Nat) (sec : Nat) (uuid : Nat → String) (sendOk : String → Bool)
  | endPoll (sel : List Nat)
  | duplicatePoll (sel : List Nat)

def applyAction (db : DB) : AdminAction → DB
  | .startPoll sel sec uuid sendOk => start_poll db sel sec uuid sendOk
  | .endPoll sel => end_poll db sel
  | .duplicatePoll sel => duplicate_poll db sel

def applyActions (db : DB) (acts : List AdminAction) : DB :=
  acts.foldl applyAction db

/-- The state of the poll row with primary key `pid`. -/
def stateOf (db : DB) (pid : Nat) : Option PollState :=
  (db.polls.find? (fun p => decide (p.id = pid))).map Poll.state

/-- One legal move of the lifecycle: stay put, or advance one step along
NOT_STARTED → STARTED → FINISHED. -/
def stateStep (s t : PollState) : Prop :=
  t = s ∨ (s = .NOT_STARTED ∧ t = .STARTED) ∨ (s = .STARTED ∧ t = .FINISHED)

/-- The reachability order generated by `stateStep`. -/
def stateLe : PollState → PollState → Prop
  | .NOT_STARTED, _ => True
  | .STARTED, .STARTED => True
  | .STARTED, .FINISHED => True
  | .FINISHED, .FINISHED => True
  | _, _ => False

/-- `n` immediate repetitions of the same redeem request (same poll, key value,
method and payload), threading the database through. -/
def iterVote : Nat → DB → Nat → String → Bool → List String → DB
  | 0, db, _, _, _, _ => db
  | n + 1, db, pid, v, m, l => iterVote n (vote db pid v m l).1 pid v m l

/-! ### Concrete fixtures for witnesses and counterexamples -/

/-- A started poll that allows spoiling, owned by secretary 5. -/
def exPoll : Poll := { id := 1, allow_spoiling := true, private_key_method := "6",
                       state := .STARTED, voter_local := [7], voter_remote := [8],
                       secretary := 5 }

/-- An unredeemed key of `exPoll`. -/
def exKey : Key := { poll := some 1, value := "111111", response := .NOT_RETURNED }

/-- A key owned by a different poll (id 2). -/
def otherPollKey : Key := { poll := some 2, value := "123456", response := .NOT_RETURNED }

/-- An unvisited LOCAL entitlement record of `exPoll`. -/
def exSe : SendEmail := { public_key := "u1", voter := 3, poll := 1, visited := false,
                          status := .LOCAL, secretary := 5 }

/-- A second unvisited LOCAL entitlement record of `exPoll`. -/
def exSe2 : SendEmail := { public_key := "u2", voter := 4, poll := 1, visited := false,
                           status := .LOCAL, secretary := 5 }

/-- `exSe` after its key was issued. -/
def exSeVisited : SendEmail := { exSe with visited := true }

/-- Started poll with one registered unredeemed key. -/
def exDB : DB := { polls := [exPoll], keys := [exKey], sendEmails := [], badKeys := [] }

/-- Started poll, one registered key, one unvisited entitlement record. -/
def exDB1 : DB := { polls := [exPoll], keys := [exKey], sendEmails := [exSe], badKeys := [] }

/-- Started poll whose only key value is owned by a different poll. -/
def exDBother : DB :=
  { polls := [exPoll], keys := [otherPollKey], sendEmails := [exSe], badKeys := [] }

/-- The key minted by `create_private_key_for` on `exDB1` when the generator
draws "222222". -/
def mintedKey : Key := { poll := some 1, value := "222222", response := .NOT_RETURNED }

/-- `exDB1` after that mint. -/
def exDB1m : DB := { polls := [exPoll], keys := [exKey, mintedKey],
                     sendEmails := [exSeVisited], badKeys := [] }

/-- Started poll with no keys at all. -/
def exDBempty : DB := { polls := [exPoll], keys := [], sendEmails := [], badKeys := [] }

/-- Finished poll with an already-visited entitlement record. -/
def exDBfin : DB := { polls := [{ exPoll with state := .FINISHED }], keys := [],
                      sendEmails := [exSeVisited], badKeys := [] }

/-- Started poll with an already-visited entitlement record. -/
def exDBvisited : DB := { polls := [exPoll], keys := [], sendEmails := [exSeVisited],
                          badKeys := [] }

/-- A not-yet-started poll, for the lifecycle witness. -/
def exDBnotStarted : DB := { polls := [{ exPoll with state := .NOT_STARTED }], keys := [],
                             sendEmails := [], badKeys := [] }

/-- Batch-print fixture: two unvisited LOCAL records. -/
def exDBbatch : DB := { polls := [exPoll], keys := [], sendEmails := [exSe, exSe2],
                        badKeys := [] }

/-- Draw oracle of the batch-print fixture: a good value for the first record's
mint, a bad-length value for the second one's. -/
def exBatchGen : Nat → Nat → String := fun i _ => if i = 0 then "333333" else "bad"

/-- The key the batch's first mint creates. -/
def batchKey : Key := { poll := some 1, value := "333333", response := .NOT_RETURNED }

/-- `exDBbatch` after the first mint. -/
def exDBbatch1 : DB := { polls := [exPoll], keys := [batchKey],
                         sendEmails := [exSeVisited, exSe2], badKeys := [] }

/-! ## Helper lemmas -/

theorem keyLookupPred_stable (w : String) (r : Response) (v : String) (pid : Nat)
    (k : Key) :
    (fun k : Key => decide (k.value = v ∧ k.poll = some pid))
        (if k.value = w then { k with response := r } else k) =
      (fun k : Key => decide (k.value = v ∧ k.poll = some pid)) k := by
  by_cases h : k.value = w <;> simp [h]

/-- Recording a response never changes which row a key lookup returns, only the
returned row's `response` field. -/
theorem find?_saveKeyResponse (keys : List Key) (w : String) (r : Response)
    (v : String) (pid : Nat) :
    (saveKeyResponse keys w r).find? (fun k => decide (k.value = v ∧ k.poll = some pid)) =
      (keys.find? (fun k => decide (k.value = v ∧ k.poll = some pid))).map
        (fun k => if k.value = w then { k with response := r } else k) := by
  unfold saveKeyResponse
  rw [List.find?_map]
  have hpred : ((fun k : Key => decide (k.value = v ∧ k.poll = some pid)) ∘ fun k =>
      if k.value = w then { k with response := r } else k) =
      fun k : Key => decide (k.value = v ∧ k.poll = some pid) := by
    funext k
    exact keyLookupPred_stable w r v pid k
  rw [hpred]

/-! ## C9 -/

/-- C9: when the poll exists but is not STARTED, `vote` performs no mutation at
all — no InvalidAttempt row, no key write — and only returns the message naming
the current state: the state gate precedes the key lookup and the logging. -/
theorem vote_wrong_state_no_mutation (db : DB) (pid : Nat) (v : String)
    (m : Bool) (l : List String) (poll : Poll)
    (hp : db.polls.find? (fun p => decide (p.id = pid)) = some poll)
    (hs : poll.state ≠ PollState.STARTED) :
    vote db pid v m l = (db, .stateMessage poll.state) := by
  unfold vote
  rw [hp]
  simp [hs]

/-- Witness for C9 on the finished-poll fixture. -/
theorem vote_wrong_state_no_mutation_witness :
    vote exDBfin 1 "111111" true ["Y"] = (exDBfin, .stateMessage PollState.FINISHED) :=
  vote_wrong_state_no_mutation exDBfin 1 "111111" true ["Y"]
    { exPoll with state := .FINISHED } (by decide) (by decide)

/-! ## C7 -/

/-- C7: redeeming an unregistered key value against a STARTED poll appends
exactly one BadKey row for that poll and value and reports "not registered";
`n` repetitions append exactly `n` rows — the path is never blocked or
deduplicated. -/
theorem vote_unregistered_logs (db : DB) (pid : Nat) (v : String) (m : Bool)
    (l : List String) (poll : Poll)
    (hp : db.polls.find? (fun p => decide (p.id = pid)) = some poll)
    (hs : poll.state = PollState.STARTED)
    (hk : db.keys.find? (fun k => decide (k.value = v ∧ k.poll = some pid)) = none) :
    vote db pid v m l = ({ db with badKeys := db.badKeys ++ [⟨some pid, v⟩] },
        .keyUnregistered)
  ∧ ∀ n, (iterVote n db pid v m l).badKeys =
      db.badKeys ++ List.replicate n ⟨some pid, v⟩ := by
  have hone : ∀ db' : DB, db'.polls = db.polls → db'.keys = db.keys →
      vote db' pid v m l = ({ db' with badKeys := db'.badKeys ++ [⟨some pid, v⟩] },
        .keyUnregistered) := by
    intro db' hpolls hkeys
    unfold vote
    rw [hpolls, hp, hkeys, hk]
    simp [hs]
  refine ⟨hone db rfl rfl, ?_⟩
  have aux : ∀ (n : Nat) (db' : DB), db'.polls = db.polls → db'.keys = db.keys →
      (iterVote n db' pid v m l).badKeys = db'.badKeys ++ List.replicate n ⟨some pid, v⟩ := by
    intro n
    induction n with
    | zero => intro db' _ _; simp [iterVote]
    | succ n ih =>
      intro db' hpolls hkeys
      have hstep : iterVote (n + 1) db' pid v m l =
          iterVote n { db' with badKeys := db'.badKeys ++ [⟨some pid, v⟩] } pid v m l := by
        show iterVote n (vote db' pid v m l).1 pid v m l = _
        rw [hone db' hpolls hkeys]
      rw [hstep, ih { db' with badKeys := db'.badKeys ++ [⟨some pid, v⟩] } hpolls hkeys]
      simp [List.replicate_succ, List.append_assoc]
  exact fun n => aux n db rfl rfl

/-- Witness for C7: two repetitions against an empty key table append two
BadKey rows. -/
theorem vote_unregistered_logs_witness :
    (iterVote 2 exDBempty 1 "123456" true ["Y"]).badKeys =
      [⟨some 1, "123456"⟩, ⟨some 1, "123456"⟩] :=
  ((vote_unregistered_logs exDBempty 1 "123456" true ["Y"] exPoll
      (by decide) (by decide) (by decide)).2 2).trans (by decide)

/-! ## C3 -/

/-- C3: a key's stored response leaves NOT_RETURNED at most once and is never
changed afterwards.  Concretely: a redeem POST with YES then a second POST with
NO on the same key returns "vote recorded" then "already voted", the database
is unchanged by the second POST, every row holding that key value stores YES
after both, and — in any well-formed table (distinct key values) — no `vote`
call ever touches a row whose response already left NOT_RETURNED. -/
theorem key_response_write_once (db : DB) (pid : Nat) (v : String) (poll : Poll)
    (k : Key)
    (hp : db.polls.find? (fun p => decide (p.id = pid)) = some poll)
    (hs : poll.state = PollState.STARTED)
    (hk : db.keys.find? (fun x => decide (x.value = v ∧ x.poll = some pid)) = some k)
    (hr : k.response = Response.NOT_RETURNED) :
    vote db pid v true ["Y"] =
      ({ db with keys := saveKeyResponse db.keys k.value .YES }, .voteRecorded)
  ∧ vote { db with keys := saveKeyResponse db.keys k.value .YES } pid v true ["N"] =
      ({ db with keys := saveKeyResponse db.keys k.value .YES }, .alreadyVoted)
  ∧ (∀ x ∈ saveKeyResponse db.keys k.value .YES, x.value = v → x.response = .YES)
  ∧ (∀ (db2 : DB) (pid2 : Nat) (v2 : String) (m2 : Bool) (l2 : List String) (x : Key),
       (db2.keys.map Key.value).Nodup → x ∈ db2.keys →
       x.response ≠ Response.NOT_RETURNED → x ∈ (vote db2 pid2 v2 m2 l2).1.keys) := by
  have hkv : k.value = v := by
    have := List.find?_some hk
    simp only [decide_eq_true_eq] at this
    exact this.1
  have hprY : parseResponses ["Y"] = some Response.YES := by rfl
  have hprN : parseResponses ["N"] = some Response.NO := by rfl
  refine ⟨?_, ?_, ?_, ?_⟩
  · unfold vote
    rw [hp, hk]
    simp [hs, hr, hprY]
  · unfold vote
    rw [hp]
    simp only []
    rw [find?_saveKeyResponse db.keys k.value .YES v pid, hk]
    simp [hs, hprN]
  · intro x hx hxv
    unfold saveKeyResponse at hx
    rcases List.mem_map.1 hx with ⟨x0, hx0, hfx⟩
    by_cases h0 : x0.value = k.value
    · rw [if_pos h0] at hfx
      rw [← hfx]
    · rw [if_neg h0] at hfx
      rw [← hfx] at hxv
      exact absurd (hxv.trans hkv.symm) h0
  · intro db2 pid2 v2 m2 l2 x hnd hx hxr
    have hsave : ∀ (r : Response) (key : Key), key ∈ db2.keys →
        key.response = Response.NOT_RETURNED → x ∈ saveKeyResponse db2.keys key.value r := by
      intro r key hkmem hkr
      have hne : x.value ≠ key.value := by
        intro heq
        have hxk : x = key := List.inj_on_of_nodup_map hnd hx hkmem heq
        rw [hxk] at hxr
        exact hxr hkr
      have hmem : (if x.value = key.value then { x with response := r } else x) ∈
          saveKeyResponse db2.keys key.value r :=
        List.mem_map_of_mem _ hx
      rw [if_neg hne] at hmem
      exact hmem
    unfold vote
    rcases hfp : db2.polls.find? (fun p => decide (p.id = pid2)) with _ | poll2
    · simp only [hfp]
      exact hx
    · simp only [hfp]
      by_cases hst : poll2.state ≠ PollState.STARTED
      · rw [if_pos hst]
        exact hx
      · rw [if_neg hst]
        rcases hfk : db2.keys.find? (fun k => decide (k.value = v2 ∧ k.poll = some pid2))
          with _ | key2
        · simp only [hfk]
          exact hx
        · simp only [hfk]
          by_cases hm : m2 = true
          · rw [if_pos hm]
            rcases hpr : parseResponses l2 with _ | r
            · simp only [hpr]
              exact hx
            · simp only [hpr]
              by_cases hspoil : poll2.allow_spoiling = false ∧ r = Response.SPOILED
              · rw [if_pos hspoil]
                exact hx
              · rw [if_neg hspoil]
                by_cases hkr : key2.response = Response.NOT_RETURNED
                · rw [if_pos hkr]
                  exact hsave r key2 (List.mem_of_find?_eq_some hfk) hkr
                · rw [if_neg hkr]
                  exact hx
          · rw [if_neg hm]
            by_cases hkr : key2.response = Response.NOT_RETURNED
            · rw [if_pos hkr]
              exact hx
            · rw [if_neg hkr]
              exact hx

/-- Witness for C3 on the started-poll fixture: YES then NO. -/
theorem key_response_write_once_witness :
    vote exDB 1 "111111" true ["Y"] =
      ({ exDB with keys := saveKeyResponse exDB.keys "111111" .YES }, .voteRecorded)
  ∧ vote { exDB with keys := saveKeyResponse exDB.keys "111111" .YES } 1 "111111" true ["N"] =
      ({ exDB with keys := saveKeyResponse exDB.keys "111111" .YES }, .alreadyVoted) :=
  ⟨(key_response_write_once exDB 1 "111111" exPoll exKey (by decide) (by decide)
      (by decide) (by decide)).1,
   (key_response_write_once exDB 1 "111111" exPoll exKey (by decide) (by decide)
      (by decide) (by decide)).2.1⟩

/-! ## C1 -/

theorem dedup_all_eq {α : Type} [DecidableEq α] {l : List α} {a : α}
    (hne : l ≠ []) (hall : ∀ x ∈ l, x = a) : l.dedup = [a] := by
  induction l with
  | nil => exact absurd rfl hne
  | cons b t ih =>
    have hb : b = a := hall b (List.mem_cons_self b t)
    rcases t with _ | ⟨c, t2⟩
    · simp [hb]
    · have hc : a ∈ c :: t2 := by
        rw [← hall c (by simp)]
        exact List.mem_cons_self c t2
      have hbmem : b ∈ c :: t2 := by
        rw [hb]
        exact hc
      rw [List.dedup_cons_of_mem hbmem]
      exact ih (by simp) fun x hx => hall x (List.mem_cons_of_mem _ hx)

/-- A bad token makes the whole parse a ValueError. -/
theorem parseResponses_badToken {l : List String} (hm : l.mapM parseToken = none) :
    parseResponses l = none := by
  unfold parseResponses
  simp only [hm]

/-- An empty submission parses to a ValueError. -/
theorem parseResponses_nil {l : List String} (hm : l.mapM parseToken = some []) :
    parseResponses l = none := by
  unfold parseResponses
  simp only [hm]
  rw [if_neg (by decide)]
  rfl

/-- A nonempty submission all of whose tokens parse to the same value selects
that value — whichever of the four it is. -/
theorem parseResponses_singleton {l : List String} {rs : List Response} {a : Response}
    (hm : l.mapM parseToken = some rs) (hne : rs ≠ []) (hall : ∀ x ∈ rs, x = a) :
    parseResponses l = some a := by
  unfold parseResponses
  simp only [hm]
  have hfs : rs.toFinset ≠ ({Response.YES, Response.NO} : Finset Response) := by
    intro h
    have hy : Response.YES ∈ rs := List.mem_toFinset.1 (by rw [h]; simp)
    have hn : Response.NO ∈ rs := List.mem_toFinset.1 (by rw [h]; simp)
    exact Response.noConfusion ((hall _ hy).trans (hall _ hn).symm)
  rw [if_neg hfs, dedup_all_eq hne hall]

/-- A submission whose distinct parsed values are exactly {YES, NO} collapses
to SPOILED. -/
theorem parseResponses_pair {l : List String} {rs : List Response}
    (hm : l.mapM parseToken = some rs) (hy : Response.YES ∈ rs) (hn : Response.NO ∈ rs)
    (hsp : Response.SPOILED ∉ rs) (hq : Response.NOT_RETURNED ∉ rs) :
    parseResponses l = some Response.SPOILED := by
  unfold parseResponses
  simp only [hm]
  have hfs : rs.toFinset = ({Response.YES, Response.NO} : Finset Response) := by
    ext x
    simp only [List.mem_toFinset, Finset.mem_insert, Finset.mem_singleton]
    constructor
    · intro hx
      cases x with
      | YES => exact Or.inl rfl
      | NO => exact Or.inr rfl
      | SPOILED => exact absurd hx hsp
      | NOT_RETURNED => exact absurd hx hq
    · rintro (rfl | rfl)
      · exact hy
      · exact hn
  rw [if_pos hfs]

/-- A submission with at least two distinct parsed values that is not exactly
{YES, NO} is a ValueError. -/
theorem parseResponses_multi {l : List String} {rs : List Response}
    (hm : l.mapM parseToken = some rs)
    (hmulti : ∃ a ∈ rs, ∃ b ∈ rs, a ≠ b)
    (hnotYN : ¬(Response.YES ∈ rs ∧ Response.NO ∈ rs ∧
               Response.SPOILED ∉ rs ∧ Response.NOT_RETURNED ∉ rs)) :
    parseResponses l = none := by
  unfold parseResponses
  simp only [hm]
  have hfs : rs.toFinset ≠ ({Response.YES, Response.NO} : Finset Response) := by
    intro h
    refine hnotYN ⟨List.mem_toFinset.1 (by rw [h]; simp),
      List.mem_toFinset.1 (by rw [h]; simp), ?_, ?_⟩
    · intro hx
      have := List.mem_toFinset.2 hx
      rw [h] at this
      simp at this
    · intro hx
      have := List.mem_toFinset.2 hx
      rw [h] at this
      simp at this
  rw [if_neg hfs]
  obtain ⟨a, ha, b, hb, hab⟩ := hmulti
  rcases hd : rs.dedup with _ | ⟨x, _ | ⟨y, t⟩⟩
  · rfl
  · have ha2 : a = x := by
      have := List.mem_dedup.2 ha
      rw [hd] at this
      simpa using this
    have hb2 : b = x := by
      have := List.mem_dedup.2 hb
      rw [hd] at this
      simpa using this
    exact absurd (ha2.trans hb2.symm) hab
  · rfl

/-- Reduction of a redeem POST on a STARTED poll with a registered key to the
response-parsing outcome. -/
theorem vote_post_reduce (db : DB) (pid : Nat) (v : String) (l : List String)
    (poll : Poll) (k : Key)
    (hp : db.polls.find? (fun p => decide (p.id = pid)) = some poll)
    (hs : poll.state = PollState.STARTED)
    (hk : db.keys.find? (fun x => decide (x.value = v ∧ x.poll = some pid)) = some k) :
    vote db pid v true l = (match parseResponses l with
      | none => (db, .responseUnrecognized)
      | some r =>
        if poll.allow_spoiling = false ∧ r = Response.SPOILED then (db, .spoilingForbidden)
        else if k.response = Response.NOT_RETURNED then
          ({ db with keys := saveKeyResponse db.keys k.value r }, .voteRecorded)
        else (db, .alreadyVoted)) := by
  unfold vote
  simp only [hp, hk]
  rw [if_neg (by simp [hs])]
  simp only [if_true]

/-- C1 (counterexample): submitting the single token "S" — a token other than
YES/NO — against a STARTED poll with a registered, unredeemed key is NOT the
"response not recognized" outcome: the code parses it as SPOILED and (with
spoiling allowed) records it, mutating the key row. -/
theorem vote_single_spoiled_token_cx :
    vote exDB 1 "111111" true ["S"] =
      ({ exDB with keys := [{ poll := some 1, value := "111111", response := .SPOILED }] },
       .voteRecorded)
  ∧ VoteOutcome.voteRecorded ≠ VoteOutcome.responseUnrecognized := by
  constructor
  · decide
  · decide

/-- C1 (amended): the submitted tokens are parsed as the four stored response
values (Y, N, S, ?) and collected into a set; exactly {YES, NO} collapses to
SPOILED, any singleton set selects its value — including SPOILED (then subject
to the allow_spoiling policy) and NOT_RETURNED — and an unparseable token, an
empty submission, or any other multi-valued set yields "response not
recognized" with no mutation. -/
theorem vote_response_parsing (db : DB) (pid : Nat) (v : String) (l : List String)
    (poll : Poll) (k : Key)
    (hp : db.polls.find? (fun p => decide (p.id = pid)) = some poll)
    (hs : poll.state = PollState.STARTED)
    (hk : db.keys.find? (fun x => decide (x.value = v ∧ x.poll = some pid)) = some k)
    (hr : k.response = Response.NOT_RETURNED) :
    (l.mapM parseToken = none → vote db pid v true l = (db, .responseUnrecognized))
  ∧ ∀ rs : List Response, l.mapM parseToken = some rs →
      ((rs = [] → vote db pid v true l = (db, .responseUnrecognized))
    ∧ (rs ≠ [] → (∀ x ∈ rs, x = Response.YES) → vote db pid v true l =
        ({ db with keys := saveKeyResponse db.keys k.value .YES }, .voteRecorded))
    ∧ (rs ≠ [] → (∀ x ∈ rs, x = Response.NO) → vote db pid v true l =
        ({ db with keys := saveKeyResponse db.keys k.value .NO }, .voteRecorded))
    ∧ (rs ≠ [] → (∀ x ∈ rs, x = Response.NOT_RETURNED) → vote db pid v true l =
        ({ db with keys := saveKeyResponse db.keys k.value .NOT_RETURNED }, .voteRecorded))
    ∧ (rs ≠ [] → (∀ x ∈ rs, x = Response.SPOILED) →
        (poll.allow_spoiling = false → vote db pid v true l = (db, .spoilingForbidden))
      ∧ (poll.allow_spoiling = true → vote db pid v true l =
          ({ db with keys := saveKeyResponse db.keys k.value .SPOILED }, .voteRecorded)))
    ∧ (Response.YES ∈ rs → Response.NO ∈ rs → Response.SPOILED ∉ rs →
        Response.NOT_RETURNED ∉ rs →
        (poll.allow_spoiling = false → vote db pid v true l = (db, .spoilingForbidden))
      ∧ (poll.allow_spoiling = true → vote db pid v true l =
          ({ db with keys := saveKeyResponse db.keys k.value .SPOILED }, .voteRecorded)))
    ∧ ((∃ a ∈ rs, ∃ b ∈ rs, a ≠ b) →
        ¬(Response.YES ∈ rs ∧ Response.NO ∈ rs ∧ Response.SPOILED ∉ rs ∧
          Response.NOT_RETURNED ∉ rs) →
        vote db pid v true l = (db, .responseUnrecognized))) := by
  have hred := vote_post_reduce db pid v l poll k hp hs hk
  constructor
  · intro hm
    rw [hred, parseResponses_badToken hm]
  · intro rs hm
    refine ⟨?_, ?_, ?_, ?_, ?_, ?_, ?_⟩
    · rintro rfl
      rw [hred, parseResponses_nil hm]
    · intro hne hall
      rw [hred, parseResponses_singleton hm hne hall]
      simp only []
      rw [if_neg (by simp), if_pos hr]
    · intro hne hall
      rw [hred, parseResponses_singleton hm hne hall]
      simp only []
      rw [if_neg (by simp), if_pos hr]
    · intro hne hall
      rw [hred, parseResponses_singleton hm hne hall]
      simp only []
      rw [if_neg (by simp), if_pos hr]
    · intro hne hall
      constructor
      · intro hnospoil
        rw [hred, parseResponses_singleton hm hne hall]
        simp only []
        rw [if_pos ⟨hnospoil, trivial⟩]
      · intro hspoil
        rw [hred, parseResponses_singleton hm hne hall]
        simp only []
        rw [if_neg (by simp [hspoil]), if_pos hr]
    · intro hy hn hsp hq
      constructor
      · intro hnospoil
        rw [hred, parseResponses_pair hm hy hn hsp hq]
        simp only []
        rw [if_pos ⟨hnospoil, trivial⟩]
      · intro hspoil
        rw [hred, parseResponses_pair hm hy hn hsp hq]
        simp only []
        rw [if_neg (by simp [hspoil]), if_pos hr]
    · intro hmulti hnotYN
      rw [hred, parseResponses_multi hm hmulti hnotYN]

/-- Witness for the amended C1: a doubled YES token records YES. -/
theorem vote_response_parsing_witness :
    vote exDB 1 "111111" true ["Y", "Y"] =
      ({ exDB with keys := saveKeyResponse exDB.keys "111111" .YES }, .voteRecorded) :=
  ((vote_response_parsing exDB 1 "111111" ["Y", "Y"] exPoll exKey (by decide) (by decide)
      (by decide) (by decide)).2 [Response.YES, Response.YES] (by decide)).2.1
    (by decide) (by decide)

/-! ## Mint specification lemmas -/

/-- A successful insert by `get_or_create` appends a fresh NOT_RETURNED key of
this poll whose value no existing row holds. -/
theorem keyGetOrCreate_created {keys : List Key} {pid : Nat} {v : String}
    {keys2 : List Key} {k : Key}
    (h : keyGetOrCreate keys pid v = .ok (keys2, k, true)) :
    keys2 = keys ++ [k] ∧ k.poll = some pid ∧ k.value = v ∧
    k.response = Response.NOT_RETURNED ∧ ∀ x ∈ keys, x.value ≠ v := by
  unfold keyGetOrCreate at h
  rcases hf : keys.find? (fun k => decide (k.value = v ∧ k.poll = some pid)) with _ | k0
  · rw [hf] at h
    by_cases ha : keys.any (fun k => decide (k.value = v)) = true
    · rw [if_pos ha] at h
      exact Except.noConfusion h
    · rw [if_neg ha] at h
      obtain ⟨h1, h2, -⟩ : keys ++ [(⟨some pid, v, .NOT_RETURNED⟩ : Key)] = keys2 ∧
          (⟨some pid, v, .NOT_RETURNED⟩ : Key) = k ∧ True := by simpa using h
      refine ⟨by rw [← h1, ← h2], by rw [← h2], by rw [← h2], by rw [← h2], ?_⟩
      intro x hx hxv
      exact ha (List.any_eq_true.2 ⟨x, hx, by simp [hxv]⟩)
  · rw [hf] at h
    simp at h

/-- `get_or_create` fails only with the primary-key IntegrityError. -/
theorem keyGetOrCreate_error {keys : List Key} {pid : Nat} {v : String} {e : MintError}
    (h : keyGetOrCreate keys pid v = .error e) : e = MintError.integrityViolation := by
  unfold keyGetOrCreate at h
  rcases hf : keys.find? (fun k => decide (k.value = v ∧ k.poll = some pid)) with _ | k0
  · rw [hf] at h
    by_cases ha : keys.any (fun k => decide (k.value = v)) = true
    · rw [if_pos ha] at h
      injection h with h1
      exact h1.symm
    · rw [if_neg ha] at h
      exact Except.noConfusion h
  · rw [hf] at h
    exact Except.noConfusion h

/-- A successful run of the retry loop appends one fresh key of this poll. -/
theorem mintLoop_ok_spec {keys : List Key} {pid : Nat} {gen : Nat → String}
    {keys2 : List Key} {k : Key} :
    ∀ {fuel attempt : Nat}, mintLoop keys pid gen fuel attempt = .ok (keys2, k) →
    keys2 = keys ++ [k] ∧ k.poll = some pid ∧ k.response = Response.NOT_RETURNED ∧
      ∀ x ∈ keys, x.value ≠ k.value := by
  intro fuel
  induction fuel with
  | zero =>
    intro attempt h
    exact Except.noConfusion h
  | succ n ih =>
    intro attempt h
    unfold mintLoop at h
    by_cases hlen : (gen attempt).length ≠ 6
    · rw [if_pos hlen] at h
      exact Except.noConfusion h
    · rw [if_neg hlen] at h
      rcases hg : keyGetOrCreate keys pid (gen attempt) with e | ⟨keys3, k3, created⟩
      · simp only [hg] at h
        exact Except.noConfusion h
      · rcases created with _ | _
        · simp only [hg, Bool.false_eq_true, if_false] at h
          exact ih h
        · simp only [hg, if_true] at h
          obtain ⟨h1, h2⟩ : keys3 = keys2 ∧ k3 = k := by simpa using h
          obtain ⟨hxs, hpl, hval, hresp, hfresh⟩ := keyGetOrCreate_created hg
          subst h1
          subst h2
          refine ⟨hxs, hpl, hresp, ?_⟩
          rw [hval]
          exact hfresh

/-- Full effect of a successful `create_private_key_for`: one fresh key row
appended, the record's `visited` flipped by primary key, nothing else
touched. -/
theorem create_ok_spec {db : DB} {poll : Poll} {se : SendEmail} {gen : Nat → String}
    {db2 : DB} {k : Key}
    (h : create_private_key_for db poll se gen = .ok (db2, k)) :
    db2.polls = db.polls ∧ db2.badKeys = db.badKeys ∧ db2.keys = db.keys ++ [k] ∧
    k.poll = some poll.id ∧ k.response = Response.NOT_RETURNED ∧
    (∀ x ∈ db.keys, x.value ≠ k.value) ∧
    db2.sendEmails = db.sendEmails.map (fun x =>
      if x.public_key = se.public_key then { x with visited := true } else x) := by
  unfold create_private_key_for at h
  by_cases h1 : poll.state = PollState.FINISHED
  · rw [if_pos h1] at h
    exact Except.noConfusion h
  rw [if_neg h1] at h
  by_cases h2 : se.visited = true
  · rw [if_pos h2] at h
    exact Except.noConfusion h
  rw [if_neg h2] at h
  by_cases h3 : poll.private_key_method = "6"
  case neg =>
    rw [if_neg h3] at h
    exact Except.noConfusion h
  rw [if_pos h3] at h
  rcases hm : mintLoop db.keys poll.id gen 1000 0 with e | ⟨keys2, k2⟩
  · simp only [hm] at h
    exact Except.noConfusion h
  · simp only [hm, Except.ok.injEq, Prod.mk.injEq] at h
    obtain ⟨hdb, hk⟩ := h
    subst hk
    obtain ⟨hxs, hpl, hresp, hfresh⟩ := mintLoop_ok_spec hm
    subst hdb
    exact ⟨rfl, rfl, hxs, hpl, hresp, hfresh, rfl⟩

/-! ## C6 -/

/-- C6 (round trip): a key minted for a STARTED poll is immediately found by a
following redeem on that poll — the unregistered-key branch is not taken — and
a valid YES or NO response records the vote. -/
theorem mint_redeem_roundtrip (db : DB) (poll : Poll) (se : SendEmail)
    (gen : Nat → String) (db2 : DB) (k : Key) (tok : String) (r : Response)
    (hp : db.polls.find? (fun p => decide (p.id = poll.id)) = some poll)
    (hs : poll.state = PollState.STARTED)
    (hmint : create_private_key_for db poll se gen = .ok (db2, k))
    (htr : (tok = "Y" ∧ r = Response.YES) ∨ (tok = "N" ∧ r = Response.NO)) :
    db2.keys.find? (fun x => decide (x.value = k.value ∧ x.poll = some poll.id)) = some k
  ∧ vote db2 poll.id k.value true [tok] =
      ({ db2 with keys := saveKeyResponse db2.keys k.value r }, .voteRecorded) := by
  obtain ⟨hpolls, -, hkeys, hkp, hkr, hfresh, -⟩ := create_ok_spec hmint
  have hfind : db2.keys.find?
      (fun x => decide (x.value = k.value ∧ x.poll = some poll.id)) = some k := by
    rw [hkeys, List.find?_append]
    have hnone : db.keys.find?
        (fun x => decide (x.value = k.value ∧ x.poll = some poll.id)) = none := by
      rw [List.find?_eq_none]
      intro x hx
      simp only [decide_eq_true_eq, not_and]
      intro hv
      exact absurd hv (hfresh x hx)
    rw [hnone]
    simp [List.find?, hkp]
  refine ⟨hfind, ?_⟩
  have hp2 : db2.polls.find? (fun p => decide (p.id = poll.id)) = some poll := by
    rw [hpolls]
    exact hp
  have hred := vote_post_reduce db2 poll.id k.value [tok] poll k hp2 hs hfind
  rcases htr with ⟨rfl, rfl⟩ | ⟨rfl, rfl⟩
  · have hple : parseResponses ["Y"] = some Response.YES := by decide
    rw [hred, hple]
    simp only []
    rw [if_neg (by simp), if_pos hkr]
  · have hple : parseResponses ["N"] = some Response.NO := by decide
    rw [hred, hple]
    simp only []
    rw [if_neg (by simp), if_pos hkr]

/-- Witness for C6: the key minted on the fixture redeems immediately. -/
theorem mint_redeem_roundtrip_witness :
    vote exDB1m 1 "222222" true ["Y"] =
      ({ exDB1m with keys := saveKeyResponse exDB1m.keys "222222" .YES }, .voteRecorded) :=
  (mint_redeem_roundtrip exDB1 exPoll exSe (fun _ => "222222") exDB1m mintedKey "Y"
      Response.YES (by decide) (by decide) rfl (Or.inl ⟨rfl, rfl⟩)).2

/-! ## C8 -/

theorem digits_are_digits : ∀ c ∈ digits, c.isDigit = true := by decide

/-- The retry loop never raises the length assertion when every draw has
length 6. -/
theorem mintLoop_no_length_fault {keys : List Key} {pid : Nat} {gen : Nat → String}
    (hlen : ∀ a, (gen a).length = 6) :
    ∀ fuel attempt, mintLoop keys pid gen fuel attempt ≠ .error .generatorLengthBad := by
  intro fuel
  induction fuel with
  | zero =>
    intro attempt h
    injection h with h1
    exact MintError.noConfusion h1
  | succ n ih =>
    intro attempt h
    unfold mintLoop at h
    rw [if_neg (by simp [hlen attempt])] at h
    rcases hg : keyGetOrCreate keys pid (gen attempt) with e | ⟨keys3, k3, created⟩
    · simp only [hg] at h
      injection h with h1
      have := keyGetOrCreate_error hg
      rw [this] at h1
      exact MintError.noConfusion h1
    · rcases created with _ | _
      · simp only [hg, Bool.false_eq_true, if_false] at h
        exact ih (attempt + 1) h
      · simp only [hg, if_true] at h
        exact Except.noConfusion h

/-- `create_private_key_for` never raises the length assertion when every draw
has length 6. -/
theorem create_no_length_fault {db : DB} {poll : Poll} {se : SendEmail}
    {gen : Nat → String} (hlen : ∀ a, (gen a).length = 6) :
    create_private_key_for db poll se gen ≠ .error .generatorLengthBad := by
  unfold create_private_key_for
  by_cases h1 : poll.state = PollState.FINISHED
  · rw [if_pos h1]
    intro h
    injection h with h2
    exact MintError.noConfusion h2
  rw [if_neg h1]
  by_cases h2 : se.visited = true
  · rw [if_pos h2]
    intro h
    injection h with h3
    exact MintError.noConfusion h3
  rw [if_neg h2]
  by_cases h3 : poll.private_key_method = "6"
  case neg =>
    rw [if_neg h3]
    intro h
    injection h with h4
    exact MintError.noConfusion h4
  rw [if_pos h3]
  rcases hm : mintLoop db.keys poll.id gen 1000 0 with e | ⟨keys2, k2⟩
  · simp only [hm]
    intro h
    injection h with h4
    rw [h4] at hm
    exact mintLoop_no_length_fault hlen 1000 0 hm
  · simp only [hm]
    intro h
    exact Except.noConfusion h

/-- C8: the defensive length check is valid — `secure_digits` with k = 6 always
returns a string of exactly 6 digit characters, so the length-assertion branch
of `create_private_key_for` is unreachable for the SIX_DIGITS method. -/
theorem secure_digits_six_ok (choice : Nat → Nat → Fin digits.length)
    (db : DB) (poll : Poll) (se : SendEmail) :
    (∀ a, (secure_digits 6 digits (choice a)).length = 6
       ∧ ∀ c ∈ (secure_digits 6 digits (choice a)).data, c.isDigit = true)
  ∧ create_private_key_for db poll se (fun a => secure_digits 6 digits (choice a))
      ≠ .error MintError.generatorLengthBad := by
  have hlen : ∀ (f : Nat → Fin digits.length) (k : Nat),
      (secure_digits k digits f).length = k := by
    intro f k
    unfold secure_digits
    simp [String.length]
  refine ⟨fun a => ⟨hlen (choice a) 6, ?_⟩, ?_⟩
  · intro c hc
    unfold secure_digits at hc
    obtain ⟨i, -, hci⟩ := List.mem_map.1 hc
    exact digits_are_digits c (hci ▸ List.get_mem digits (choice a i).1 (choice a i).2)
  · exact create_no_length_fault fun a => hlen (choice a) 6

/-- Witness for C8 at a constant draw oracle. -/
theorem secure_digits_six_ok_witness :
    (secure_digits 6 digits (fun _ => ⟨0, by decide⟩)).length = 6
  ∧ create_private_key_for exDB1 exPoll exSe
      (fun _ => secure_digits 6 digits (fun _ => ⟨0, by decide⟩))
      ≠ .error MintError.generatorLengthBad :=
  ⟨((secure_digits_six_ok (fun _ _ => ⟨0, by decide⟩) exDB1 exPoll exSe).1 0).1,
   (secure_digits_six_ok (fun _ _ => ⟨0, by decide⟩) exDB1 exPoll exSe).2⟩

/-! ## C2 -/

/-- C2 (counterexample): a drawn candidate owned by a DIFFERENT poll does not
cause a retry: the insert hits the primary-key uniqueness of `value` and the
IntegrityError propagates — neither a fresh draw nor the 1000-attempts
ValueError is reached. -/
theorem mint_cross_poll_collision_cx :
    create_private_key_for exDBother exPoll exSe (fun _ => "123456") =
      .error MintError.integrityViolation
  ∧ MintError.integrityViolation ≠ MintError.keySpaceExhausted := by
  constructor
  · rfl
  · intro h
    exact MintError.noConfusion h

/-- When every draw collides with a key this poll already owns, the loop
retries until the fuel runs out and raises the 1000-attempts ValueError. -/
theorem mintLoop_all_collide {keys : List Key} {pid : Nat} {gen : Nat → String}
    (hcol : ∀ a, (gen a).length = 6 ∧ ∃ x ∈ keys, x.value = gen a ∧ x.poll = some pid) :
    ∀ fuel attempt, mintLoop keys pid gen fuel attempt = .error .keySpaceExhausted := by
  intro fuel
  induction fuel with
  | zero =>
    intro attempt
    rfl
  | succ n ih =>
    intro attempt
    unfold mintLoop
    rw [if_neg (by simp [(hcol attempt).1])]
    obtain ⟨x, hx, hv, hpl⟩ := (hcol attempt).2
    rcases hf : keys.find?
        (fun k => decide (k.value = gen attempt ∧ k.poll = some pid)) with _ | k0
    · exfalso
      have := List.find?_eq_none.1 hf x hx
      simp [hv, hpl] at this
    · have hgc : keyGetOrCreate keys pid (gen attempt) = .ok (keys, k0, false) := by
        unfold keyGetOrCreate
        rw [hf]
      simp only [hgc, Bool.false_eq_true, if_false]
      exact ih (attempt + 1)

/-- C2 (amended): on a non-FINISHED poll with an unvisited record, a drawn
candidate already owned by THIS poll causes a retry with a fresh candidate, up
to the bound of 1000 attempts, and exhausting the bound raises the
1000-attempts ValueError to the caller; but a candidate owned by a DIFFERENT
poll makes the insert hit the global primary-key uniqueness of the key value
and raises an IntegrityError instead of retrying. -/
theorem mint_collision_semantics (db : DB) (poll : Poll) (se : SendEmail)
    (gen : Nat → String)
    (hst : poll.state ≠ PollState.FINISHED) (hv : se.visited = false)
    (hm : poll.private_key_method = "6") :
    ((∀ a, (gen a).length = 6 ∧ ∃ x ∈ db.keys, x.value = gen a ∧ x.poll = some poll.id) →
      create_private_key_for db poll se gen = .error MintError.keySpaceExhausted)
  ∧ ((gen 0).length = 6 →
     (∀ x ∈ db.keys, ¬(x.value = gen 0 ∧ x.poll = some poll.id)) →
     (∃ x ∈ db.keys, x.value = gen 0) →
      create_private_key_for db poll se gen = .error MintError.integrityViolation) := by
  have hopen : ∀ r : Except MintError (DB × Key),
      (mintLoop db.keys poll.id gen 1000 0 = .error .keySpaceExhausted →
        create_private_key_for db poll se gen = .error .keySpaceExhausted) ∧
      (mintLoop db.keys poll.id gen 1000 0 = .error .integrityViolation →
        create_private_key_for db poll se gen = .error .integrityViolation) := by
    intro _
    unfold create_private_key_for
    rw [if_neg hst, if_neg (by simp [hv]), if_pos hm]
    constructor
    · intro hml
      simp only [hml]
    · intro hml
      simp only [hml]
  constructor
  · intro hcol
    exact ((hopen (.error .keySpaceExhausted)).1) (mintLoop_all_collide hcol 1000 0)
  · intro hlen hnothis hother
    refine ((hopen (.error .integrityViolation)).2) ?_
    have h1000 : (1000 : Nat) = 999 + 1 := rfl
    rw [h1000]
    unfold mintLoop
    rw [if_neg (by simp [hlen])]
    have hf : db.keys.find?
        (fun k => decide (k.value = gen 0 ∧ k.poll = some poll.id)) = none := by
      rw [List.find?_eq_none]
      intro x hx
      simp only [decide_eq_true_eq]
      exact hnothis x hx
    have hgc : keyGetOrCreate db.keys poll.id (gen 0) = .error .integrityViolation := by
      unfold keyGetOrCreate
      rw [hf, if_pos]
      obtain ⟨x, hx, hxv⟩ := hother
      exact List.any_eq_true.2 ⟨x, hx, by simp [hxv]⟩
    simp only [hgc]

/-- Witness for the amended C2: a constant draw already owned by this poll
exhausts all 1000 attempts. -/
theorem mint_collision_semantics_witness :
    create_private_key_for exDB1 exPoll exSe (fun _ => "111111") =
      .error MintError.keySpaceExhausted :=
  (mint_collision_semantics exDB1 exPoll exSe (fun _ => "111111")
      (by decide) (by decide) (by decide)).1
    (fun a => ⟨by decide, exKey, by decide, by decide, by decide⟩)

/-! ## C5 -/

/-- C5 (counterexample): on a FINISHED poll whose record is already visited,
`requestKey` returns the "poll finished" message, not "ballot already issued" —
the FINISHED gate is checked first. -/
theorem request_key_finished_visited_cx :
    get_bulletin_common exDBfin exSeVisited (fun _ => "444444") =
      (exDBfin, .valueMessage MintError.pollFinished)
  ∧ BulletinOutcome.valueMessage MintError.pollFinished ≠
      BulletinOutcome.valueMessage MintError.bulletinAlreadyIssued := by
  constructor
  · rfl
  · intro h
    injection h with h1
    exact MintError.noConfusion h1

/-- C5 (amended): `requestKey` on a record whose poll is FINISHED returns the
"poll finished" message with no key row created and the visited flag unchanged
(the whole store is returned untouched); and on a record whose poll is NOT
FINISHED but whose visited flag is already true, it returns the "ballot
already issued" message and mints no key (the FINISHED message takes
precedence when both hold). -/
theorem request_key_gates (db : DB) (se : SendEmail) (gen : Nat → String)
    (poll : Poll)
    (hp : db.polls.find? (fun p => decide (p.id = se.poll)) = some poll) :
    (poll.state = PollState.FINISHED →
      get_bulletin_common db se gen = (db, .valueMessage MintError.pollFinished))
  ∧ (poll.state ≠ PollState.FINISHED → se.visited = true →
      get_bulletin_common db se gen =
        (db, .valueMessage MintError.bulletinAlreadyIssued)) := by
  constructor
  · intro hfin
    unfold get_bulletin_common
    rw [hp]
    have hcr : create_private_key_for db poll se gen = .error .pollFinished := by
      unfold create_private_key_for
      rw [if_pos hfin]
    simp only [hcr]
    rfl
  · intro hnfin hvis
    unfold get_bulletin_common
    rw [hp]
    have hcr : create_private_key_for db poll se gen = .error .bulletinAlreadyIssued := by
      unfold create_private_key_for
      rw [if_neg hnfin, if_pos hvis]
    simp only [hcr]
    rfl

/-- Witness for the amended C5: an already-visited record on a STARTED poll. -/
theorem request_key_gates_witness :
    get_bulletin_common exDBvisited exSeVisited (fun _ => "444444") =
      (exDBvisited, .valueMessage MintError.bulletinAlreadyIssued) :=
  (request_key_gates exDBvisited exSeVisited (fun _ => "444444") exPoll (by decide)).2
    (by decide) (by decide)

/-! ## C10 -/

/-- C10: when minting fails for the second record of a two-record print batch,
the action returns the inline error message and the earlier mint of the batch
survives in the stored state: the first record's key row is present and its
entitlement record's visited flag is true (the caught failure commits, it does
not undo earlier per-record mints). -/
theorem print_batch_keeps_earlier_mints (db : DB) (pid sec : Nat)
    (gen : Nat → Nat → String) (poll : Poll) (sea seb : SendEmail) (db1 : DB)
    (ka : Key) (e : MintError)
    (hp : db.polls.find? (fun p => decide (p.id = pid ∧ p.secretary = sec)) = some poll)
    (hs : poll.state = PollState.STARTED)
    (hsel : db.sendEmails.filter (fun se => decide (se.visited = false ∧ se.poll = pid ∧
              se.status = SendStatus.LOCAL ∧ se.secretary = sec)) = [sea, seb])
    (h1 : create_private_key_for db poll sea (gen 0) = .ok (db1, ka))
    (h2 : create_private_key_for db1 poll seb (gen 1) = .error e) :
    print_bulletins db pid sec gen = (db1, .mintFault e)
  ∧ ka ∈ db1.keys
  ∧ ∀ x ∈ db1.sendEmails, x.public_key = sea.public_key → x.visited = true := by
  obtain ⟨-, -, hkeys, -, -, -, hses⟩ := create_ok_spec h1
  refine ⟨?_, ?_, ?_⟩
  · unfold print_bulletins
    simp only [hp]
    rw [if_neg (by simp [hs])]
    simp only [hsel, printLoop, h1, h2]
  · rw [hkeys]
    simp
  · intro x hx hxpk
    rw [hses] at hx
    obtain ⟨x0, -, hfx⟩ := List.mem_map.1 hx
    by_cases h0 : x0.public_key = sea.public_key
    · rw [if_pos h0] at hfx
      rw [← hfx]
    · rw [if_neg h0] at hfx
      rw [← hfx] at hxpk
      exact absurd hxpk h0

/-- Witness for C10 on the two-record batch fixture: the second mint draws a
bad-length value, the batch aborts, and the first minted key plus the first
record's visited flag survive. -/
theorem print_batch_keeps_earlier_mints_witness :
    print_bulletins exDBbatch 1 5 exBatchGen =
      (exDBbatch1, .mintFault MintError.generatorLengthBad)
  ∧ batchKey ∈ exDBbatch1.keys :=
  ⟨(print_batch_keeps_earlier_mints exDBbatch 1 5 exBatchGen exPoll exSe exSe2
      exDBbatch1 batchKey MintError.generatorLengthBad (by decide) (by decide)
      (by decide) rfl rfl).1,
   (print_batch_keeps_earlier_mints exDBbatch 1 5 exBatchGen exPoll exSe exSe2
      exDBbatch1 batchKey MintError.generatorLengthBad (by decide) (by decide)
      (by decide) rfl rfl).2.1⟩

/-! ## C4: lifecycle lemmas -/

theorem seedRecord_polls (db : DB) (u : Nat → String) (n vt pid sec : Nat)
    (st : SendStatus) : (seedRecord db u n vt pid sec st).1.polls = db.polls := by
  unfold seedRecord
  split <;> rfl

theorem seedVoters_polls (u : Nat → String) (pid sec : Nat) (st : SendStatus) :
    ∀ (l : List Nat) (acc : DB × Nat),
      (seedVoters u pid sec st acc l).1.polls = acc.1.polls := by
  intro l
  induction l with
  | nil =>
    intro acc
    rfl
  | cons vt rest ih =>
    intro acc
    unfold seedVoters
    rw [ih (seedRecord acc.1 u acc.2 vt pid sec st)]
    exact seedRecord_polls acc.1 u acc.2 vt pid sec st

/-- One `start_poll` iteration only flips the matching poll row to STARTED (the
seeding and delivery steps touch `sendEmails` alone). -/
theorem startOne_polls (u : Nat → String) (f : String → Bool) (sec : Nat)
    (acc : DB × Nat) (poll : Poll) :
    (startOne u f sec acc poll).1.polls = acc.1.polls.map
      (fun p => if p.id = poll.id then { p with state := PollState.STARTED } else p) := by
  unfold startOne start_sending_thread
  simp only []
  rw [seedVoters_polls, seedVoters_polls]

/-- A pointwise id-preserving rewrite of the poll table commutes with the
primary-key lookup. -/
theorem find?_id_map (polls : List Poll) (f : Poll → Poll)
    (hid : ∀ p, (f p).id = p.id) (pid : Nat) :
    (polls.map f).find? (fun p => decide (p.id = pid)) =
      (polls.find? (fun p => decide (p.id = pid))).map f := by
  rw [List.find?_map]
  have hpred : ((fun p : Poll => decide (p.id = pid)) ∘ f) =
      fun p : Poll => decide (p.id = pid) := by
    funext p
    simp [Function.comp, hid p]
  rw [hpred]

theorem map_id_of_pointwise (polls : List Poll) (f : Poll → Poll)
    (hid : ∀ p, (f p).id = p.id) :
    (polls.map f).map Poll.id = polls.map Poll.id := by
  rw [List.map_map]
  have : (Poll.id ∘ f) = Poll.id := by
    funext p
    exact hid p
  rw [this]

theorem le_foldl_max (l : List Nat) : ∀ a : Nat, a ≤ l.foldl max a := by
  induction l with
  | nil =>
    intro a
    exact Nat.le_refl a
  | cons b t ih =>
    intro a
    exact Nat.le_trans (Nat.le_max_left a b) (ih (max a b))

theorem mem_le_foldl_max (l : List Nat) : ∀ (a : Nat), ∀ x ∈ l, x ≤ l.foldl max a := by
  induction l with
  | nil =>
    intro a x hx
    exact absurd hx (List.not_mem_nil x)
  | cons b t ih =>
    intro a x hx
    rcases List.mem_cons.1 hx with rfl | hx2
    · exact Nat.le_trans (Nat.le_max_right a x) (le_foldl_max t (max a x))
    · exact ih (max a b) x hx2

/-- The autoincremented id of a duplicated poll is fresh. -/
theorem freshId_not_mem (polls : List Poll) : freshId polls ∉ polls.map Poll.id := by
  intro hmem
  have := mem_le_foldl_max (polls.map Poll.id) 0 _ hmem
  unfold freshId at this
  omega

/-- Invariant of the `start_poll` fold: the tracked poll row keeps its state or
moves to STARTED, the latter only when its original state was not FINISHED. -/
theorem start_fold_stateOf (u : Nat → String) (f : String → Bool) (sec : Nat)
    (db0 : DB) (pid : Nat) (p0 : Poll)
    (hnd : (db0.polls.map Poll.id).Nodup)
    (hp0 : db0.polls.find? (fun p => decide (p.id = pid)) = some p0) :
    ∀ (ts : List Poll) (acc : DB × Nat),
      (∀ t ∈ ts, t ∈ db0.polls ∧ t.state ≠ PollState.FINISHED) →
      (∃ q, acc.1.polls.find? (fun p => decide (p.id = pid)) = some q ∧
        (q.state = p0.state ∨ (p0.state ≠ PollState.FINISHED ∧ q.state = PollState.STARTED))) →
      ∃ q, ((ts.foldl (startOne u f sec) acc).1.polls.find?
          (fun p => decide (p.id = pid))) = some q ∧
        (q.state = p0.state ∨ (p0.state ≠ PollState.FINISHED ∧
          q.state = PollState.STARTED)) := by
  intro ts
  induction ts with
  | nil =>
    intro acc _ hinv
    exact hinv
  | cons t rest ih =>
    intro acc hts hinv
    obtain ⟨q, hq, hqs⟩ := hinv
    have hqid : q.id = pid := by
      have := List.find?_some hq
      simpa using this
    refine ih (startOne u f sec acc t) (fun x hx => hts x (List.mem_cons_of_mem t hx)) ?_
    rw [startOne_polls, find?_id_map _ _ (fun p => by split <;> rfl), hq]
    by_cases hid : t.id = pid
    · refine ⟨_, rfl, Or.inr ⟨?_, ?_⟩⟩
      · obtain ⟨htmem, htst⟩ := hts t (List.mem_cons_self t rest)
        have hp0mem : p0 ∈ db0.polls := List.mem_of_find?_eq_some hp0
        have hp0id : p0.id = pid := by
          have := List.find?_some hp0
          simpa using this
        have : t = p0 :=
          List.inj_on_of_nodup_map hnd htmem hp0mem (by rw [hid, hp0id])
        rw [← this]
        exact htst
      · simp only [Option.map_some]
        rw [if_pos (by rw [hqid, hid])]
    · refine ⟨_, rfl, ?_⟩
      simp only [Option.map_some]
      rw [if_neg (by rw [hqid]; exact fun h => hid h.symm)]
      exact hqs

/-- Effect of `start_poll` on one poll row's state. -/
theorem start_poll_stateOf (db : DB) (sel : List Nat) (sec : Nat) (u : Nat → String)
    (f : String → Bool) (pid : Nat) (s : PollState)
    (hnd : (db.polls.map Poll.id).Nodup) (hs : stateOf db pid = some s) :
    ∃ s2, stateOf (start_poll db sel sec u f) pid = some s2 ∧
      (s2 = s ∨ (s ≠ PollState.FINISHED ∧ s2 = PollState.STARTED)) := by
  obtain ⟨p0, hp0, hp0s⟩ : ∃ p0, db.polls.find? (fun p => decide (p.id = pid)) = some p0 ∧
      p0.state = s := by
    unfold stateOf at hs
    rcases hf : db.polls.find? (fun p => decide (p.id = pid)) with _ | p0
    · rw [hf] at hs
      exact Option.noConfusion hs
    · rw [hf] at hs
      exact ⟨p0, hf, by simpa using hs⟩
  obtain ⟨q, hq, hqs⟩ := start_fold_stateOf u f sec db pid p0 hnd hp0
    (db.polls.filter fun p => decide (p.id ∈ sel ∧ p.state ≠ PollState.FINISHED))
    (db, 0)
    (fun t ht => ⟨List.mem_of_mem_filter ht, by
      have := List.of_mem_filter ht
      simp only [decide_eq_true_eq] at this
      exact this.2⟩)
    ⟨p0, hp0, Or.inl rfl⟩
  refine ⟨q.state, ?_, ?_⟩
  · unfold start_poll stateOf
    rw [hq]
    rfl
  · rw [← hp0s]
    exact hqs

/-- Effect of `end_poll` on one poll row's state. -/
theorem end_poll_stateOf (db : DB) (sel : List Nat) (pid : Nat) (s : PollState)
    (hs : stateOf db pid = some s) :
    ∃ s2, stateOf (end_poll db sel) pid = some s2 ∧
      (s2 = s ∨ (s = PollState.STARTED ∧ s2 = PollState.FINISHED)) ∧
      (s ≠ PollState.STARTED → s2 = s) := by
  obtain ⟨p0, hp0, hp0s⟩ : ∃ p0, db.polls.find? (fun p => decide (p.id = pid)) = some p0 ∧
      p0.state = s := by
    unfold stateOf at hs
    rcases hf : db.polls.find? (fun p => decide (p.id = pid)) with _ | p0
    · rw [hf] at hs
      exact Option.noConfusion hs
    · rw [hf] at hs
      exact ⟨p0, hf, by simpa using hs⟩
  unfold end_poll stateOf
  rw [find?_id_map _ _ (fun p => by split <;> rfl), hp0]
  simp only [Option.map_some']
  by_cases hcond : p0.id ∈ sel ∧ p0.state = PollState.STARTED
  · rw [if_pos hcond]
    exact ⟨PollState.FINISHED, rfl, Or.inr ⟨by rw [← hp0s]; exact hcond.2.symm ▸ rfl, rfl⟩,
      fun hne => absurd (hp0s ▸ hcond.2) hne⟩
  · rw [if_neg hcond]
    exact ⟨p0.state, rfl, Or.inl hp0s, fun _ => hp0s⟩

/-- `duplicate_poll` never touches an existing poll row. -/
theorem duplicate_poll_stateOf (db : DB) (sel : List Nat) (pid : Nat) (s : PollState)
    (hs : stateOf db pid = some s) :
    stateOf (duplicate_poll db sel) pid = some s := by
  have aux : ∀ (ts : List Poll) (acc : DB), stateOf acc pid = some s →
      stateOf (ts.foldl (fun acc2 p => { acc2 with polls := acc2.polls ++
        [{ p with id := freshId acc2.polls, state := PollState.NOT_STARTED }] }) acc)
        pid = some s := by
    intro ts
    induction ts with
    | nil =>
      intro acc h
      exact h
    | cons t rest ih =>
      intro acc h
      refine ih _ ?_
      unfold stateOf at h ⊢
      rcases hf : acc.polls.find? (fun p => decide (p.id = pid)) with _ | q
      · rw [hf] at h
        exact Option.noConfusion h
      · rw [hf] at h
        simp only []
        rw [List.find?_append, hf]
        exact h
  exact aux _ db hs

theorem start_fold_ids (u : Nat → String) (f : String → Bool) (sec : Nat) :
    ∀ (ts : List Poll) (acc : DB × Nat),
      ((ts.foldl (startOne u f sec) acc).1.polls).map Poll.id =
        acc.1.polls.map Poll.id := by
  intro ts
  induction ts with
  | nil =>
    intro acc
    rfl
  | cons t rest ih =>
    intro acc
    rw [List.foldl_cons, ih (startOne u f sec acc t), startOne_polls,
      map_id_of_pointwise _ _ (fun p => by split <;> rfl)]

/-- Every administrative action keeps the poll primary keys distinct. -/
theorem applyAction_nodup (db : DB) (a : AdminAction)
    (hnd : (db.polls.map Poll.id).Nodup) :
    ((applyAction db a).polls.map Poll.id).Nodup := by
  rcases a with ⟨sel, sec, u, f⟩ | sel | sel
  · unfold applyAction start_poll
    rw [start_fold_ids]
    exact hnd
  · unfold applyAction end_poll
    simp only []
    rw [map_id_of_pointwise _ _ (fun p => by split <;> rfl)]
    exact hnd
  · unfold applyAction duplicate_poll
    have aux : ∀ (ts : List Poll) (acc : DB), (acc.polls.map Poll.id).Nodup →
        (((ts.foldl (fun acc2 p => { acc2 with polls := acc2.polls ++
            [{ p with id := freshId acc2.polls, state := PollState.NOT_STARTED }] })
          acc).polls).map Poll.id).Nodup := by
      intro ts
      induction ts with
      | nil =>
        intro acc h
        exact h
      | cons t rest ih =>
        intro acc h
        refine ih _ ?_
        simp only [List.map_append, List.map_cons, List.map_nil]
        rw [List.nodup_append]
        refine ⟨h, List.nodup_singleton _, ?_⟩
        intro x hx hx2
        simp only [List.mem_singleton] at hx2
        rw [hx2] at hx
        exact freshId_not_mem acc.polls hx
    exact aux _ db hnd

/-- Every administrative action moves a poll's state by at most one legal
lifecycle step. -/
theorem applyAction_step (db : DB) (pid : Nat) (s : PollState) (a : AdminAction)
    (hnd : (db.polls.map Poll.id).Nodup) (hs : stateOf db pid = some s) :
    ∃ s2, stateOf (applyAction db a) pid = some s2 ∧ stateStep s s2 := by
  rcases a with ⟨sel, sec, u, f⟩ | sel | sel
  · obtain ⟨s2, h2, hd⟩ := start_poll_stateOf db sel sec u f pid s hnd hs
    refine ⟨s2, h2, ?_⟩
    rcases hd with rfl | ⟨hne, rfl⟩
    · exact Or.inl rfl
    · cases s with
      | NOT_STARTED => exact Or.inr (Or.inl ⟨rfl, rfl⟩)
      | STARTED => exact Or.inl rfl
      | FINISHED => exact absurd rfl hne
  · obtain ⟨s2, h2, hd, -⟩ := end_poll_stateOf db sel pid s hs
    refine ⟨s2, h2, ?_⟩
    rcases hd with rfl | ⟨rfl, rfl⟩
    · exact Or.inl rfl
    · exact Or.inr (Or.inr ⟨rfl, rfl⟩)
  · exact ⟨s, duplicate_poll_stateOf db sel pid s hs, Or.inl rfl⟩

theorem stateLe_refl (s : PollState) : stateLe s s := by
  cases s <;> trivial

theorem stateStep_le {s t : PollState} (h : stateStep s t) : stateLe s t := by
  rcases h with rfl | ⟨rfl, rfl⟩ | ⟨rfl, rfl⟩
  · exact stateLe_refl _
  · trivial
  · trivial

theorem stateLe_trans {s t w : PollState} (h1 : stateLe s t) (h2 : stateLe t w) :
    stateLe s w := by
  cases s <;> cases t <;> cases w <;> simp_all [stateLe]

/-- Sequential composition: any action list only moves a poll's state forward
along the lifecycle order. -/
theorem applyActions_le (acts : List AdminAction) :
    ∀ (db : DB) (pid : Nat) (s s2 : PollState),
      (db.polls.map Poll.id).Nodup → stateOf db pid = some s →
      stateOf (applyActions db acts) pid = some s2 → stateLe s s2 := by
  induction acts with
  | nil =>
    intro db pid s s2 _ h1 h2
    have h2b : stateOf db pid = some s2 := h2
    rw [h1] at h2b
    obtain rfl : s = s2 := by simpa using h2b
    exact stateLe_refl s
  | cons a acts ih =>
    intro db pid s s2 hnd h1 h2
    obtain ⟨s1, ha, hstep⟩ := applyAction_step db pid s a hnd h1
    exact stateLe_trans (stateStep_le hstep)
      (ih (applyAction db a) pid s1 s2 (applyAction_nodup db a hnd) ha h2)

/-! ## C4 -/

/-- C4: with distinct poll primary keys, every administrative action (start,
finish, duplicate) moves a poll's state by at most one legal step of
NOT_STARTED → STARTED → FINISHED (never backwards, never skipping), so every
action sequence only moves it forward along that order; `start_poll` leaves a
FINISHED poll's state untouched, and `end_poll` leaves any non-STARTED poll's
state untouched. -/
theorem poll_state_machine (db : DB) (pid : Nat)
    (hnd : (db.polls.map Poll.id).Nodup) :
    (∀ (a : AdminAction) (s : PollState), stateOf db pid = some s →
       ∃ s2, stateOf (applyAction db a) pid = some s2 ∧ stateStep s s2)
  ∧ (∀ (acts : List AdminAction) (s s2 : PollState), stateOf db pid = some s →
       stateOf (applyActions db acts) pid = some s2 → stateLe s s2)
  ∧ (∀ (sel : List Nat) (sec : Nat) (u : Nat → String) (f : String → Bool),
       stateOf db pid = some PollState.FINISHED →
       stateOf (start_poll db sel sec u f) pid = some PollState.FINISHED)
  ∧ (∀ (sel : List Nat) (s : PollState), s ≠ PollState.STARTED →
       stateOf db pid = some s → stateOf (end_poll db sel) pid = some s) := by
  refine ⟨fun a s hs => applyAction_step db pid s a hnd hs,
    fun acts s s2 hs h2 => applyActions_le acts db pid s s2 hnd hs h2, ?_, ?_⟩
  · intro sel sec u f hs
    obtain ⟨s2, h2, hd⟩ := start_poll_stateOf db sel sec u f pid PollState.FINISHED hnd hs
    rcases hd with rfl | ⟨hne, -⟩
    · exact h2
    · exact absurd rfl hne
  · intro sel s hne hs
    obtain ⟨s2, h2, -, heq⟩ := end_poll_stateOf db sel pid s hs
    rw [heq hne] at h2
    exact h2

/-- Witness for C4: finishing a NOT_STARTED poll is a no-op on its state. -/
theorem poll_state_machine_witness :
    stateOf (end_poll exDBnotStarted [1]) 1 = some PollState.NOT_STARTED :=
  (poll_state_machine exDBnotStarted 1 (by decide)).2.2.2 [1] PollState.NOT_STARTED
    (by decide) (by decide)

end Areopagus
